import Mathlib

/-!
Verification of the rlox tree-walking interpreter core: the resolver,
the runtime frame chain, the object model and the evaluator
(src/interpreter/lox.rs era of the code base), plus the parser's
break/continue statements and the runtime error plumbing.

Numbers: the source uses f64; this development models the numeric carrier
as the rationals. Every property proved here about numeric operands is
about the shape of the result (which constructor, ok versus error, which
dispatch arm), never about rounding, so the carrier choice is inert except
where noted (division by a zero denominator, flagged at its use site).
-/

namespace RLox

/-- Source positions: the lox.rs-era runtime attaches a usize place to errors. -/
abbrev Pos := Nat

/-- Modelled from the spec: src/lang/tokenizer/span.rs is not under src/
(only its users are). Per the spec every node carries a source span; a span
is a start/end byte range (token.rs builds Span::new(start, start+len)).
The end field is named stop because end is a Lean keyword. -/
structure Span where
  start : Nat
  stop : Nat
deriving DecidableEq, Repr

/-- Modelled from the spec: Span::new as used by token.rs. -/
def Span.new (s e : Nat) : Span := ⟨s, e⟩

/-- Modelled from the spec: Span::merge used by the parser to join the
keyword's span with the terminating token's span; the union of the ranges. -/
def Span.merge (a b : Span) : Span :=
  ⟨min a.start b.start, max a.stop b.stop⟩

/-! ## Runtime errors (src/interpreter/runtime/error.rs) -/

/-- NativeError from error.rs. -/
inductive NativeError where
  | SystemError (msg : String)
  | InvalidArguments (msg : String)
deriving DecidableEq, Repr

/-- LoxError from error.rs. -/
inductive LoxError where
  | TypeError (msg : String)
  | ReferenceError (msg : String)
  | NativeError (e : NativeError)
  | DebugError (msg : String)
  | EvalUnwrapError (msg : String)
  | UncaughtSyntaxError (msg : String)
deriving DecidableEq, Repr

/-- RuntimeError from error.rs: a LoxError with or without a source place. -/
inductive RuntimeError where
  | WithLocation (reason : LoxError) (place : Pos)
  | Without (reason : LoxError)
deriving DecidableEq, Repr

/-- RuntimeError::with_place: attach a place only if none is attached yet
(you cannot mutate the location originally attached). -/
def RuntimeError.with_place : RuntimeError → Pos → RuntimeError
  | RuntimeError.WithLocation reason place, _ => RuntimeError.WithLocation reason place
  | RuntimeError.Without reason, place => RuntimeError.WithLocation reason place

/-! ## Primitives (src/interpreter/runtime/primitive.rs) -/

/-- Primitive values; numbers are f64 in the source, modelled as rationals. -/
inductive Primitive where
  | Number (n : ℚ)
  | Str (s : String)
  | Boolean (b : Bool)
  | Nil
deriving DecidableEq, Repr

/-- Primitive::truthy, match arms in source order: booleans are themselves,
nil is falsy, a number equal to zero is falsy, everything else is truthy. -/
def Primitive.truthy : Primitive → Bool
  | Primitive.Boolean b => b
  | Primitive.Nil => false
  | Primitive.Number n => if n = 0 then false else true
  | _ => true

/-- Primitive::type_str. -/
def Primitive.type_str : Primitive → String
  | Primitive.Boolean _ => "boolean"
  | Primitive.Number _ => "number"
  | Primitive.Str _ => "string"
  | Primitive.Nil => "nil"

/-! ## Syntax tree (src/lang/tree/ast.rs, the lox.rs-era shape)

The evaluator in lox.rs consumes identifiers through name_str, position and
depth_slot, and operators through position. Operators therefore carry their
position directly. Positions are the usize places the runtime errors store. -/

/-- Binary operators, each carrying its source position. -/
inductive BinaryOperator where
  | Equal (pos : Pos)
  | NotEqual (pos : Pos)
  | Less (pos : Pos)
  | LessEqual (pos : Pos)
  | Greater (pos : Pos)
  | GreaterEqual (pos : Pos)
  | Plus (pos : Pos)
  | Minus (pos : Pos)
  | Star (pos : Pos)
  | Slash (pos : Pos)
deriving DecidableEq, Repr

/-- BinaryOperator::position. -/
def BinaryOperator.position : BinaryOperator → Pos
  | BinaryOperator.Equal p => p
  | BinaryOperator.NotEqual p => p
  | BinaryOperator.Less p => p
  | BinaryOperator.LessEqual p => p
  | BinaryOperator.Greater p => p
  | BinaryOperator.GreaterEqual p => p
  | BinaryOperator.Plus p => p
  | BinaryOperator.Minus p => p
  | BinaryOperator.Star p => p
  | BinaryOperator.Slash p => p

/-- Logical operators. -/
inductive LogicalOperator where
  | And (pos : Pos)
  | Or (pos : Pos)
deriving DecidableEq, Repr

/-- Unary operator prefixes (UnaryPrefix in the source; shortened here). -/
inductive UnaryPfx where
  | Bang (pos : Pos)
  | Minus (pos : Pos)
deriving DecidableEq, Repr

/-- UnaryPrefix::position. -/
def UnaryPfx.position : UnaryPfx → Pos
  | UnaryPfx.Bang p => p
  | UnaryPfx.Minus p => p

/-- Literal nodes (String is named Str to avoid shadowing the Lean type). -/
inductive Literal where
  | Number (value : ℚ) (pos : Pos)
  | Str (value : String) (pos : Pos)
  | Boolean (value : Bool) (pos : Pos)
  | Nil (pos : Pos)
deriving DecidableEq, Repr

/-- From<&ast::Literal> for Primitive. -/
def Primitive.ofLiteral : Literal → Primitive
  | Literal.Boolean b _ => Primitive.Boolean b
  | Literal.Str s _ => Primitive.Str s
  | Literal.Number n _ => Primitive.Number n
  | Literal.Nil _ => Primitive.Nil

/-- The resolved-address cell contents (ast.rs Binding). -/
inductive Binding where
  | Global
  | Local (slot : Nat) (depth : Nat)
  | UpValue (index : Nat)
deriving DecidableEq, Repr

/-- An identifier occurrence: name, write-once resolved-address cell, position. -/
structure Identifier where
  name : String
  binding : Option Binding
  pos : Pos
deriving DecidableEq, Repr

/-- Identifier::name_str. -/
def Identifier.name_str (i : Identifier) : String := i.name

/-- Identifier::position. -/
def Identifier.position (i : Identifier) : Pos := i.pos

/-- Identifier::depth_slot: Some (depth, slot) when the binding is Local. -/
def Identifier.depth_slot (i : Identifier) : Option (Nat × Nat) :=
  match i.binding with
  | some (Binding.Local slot depth) => some (depth, slot)
  | _ => none

mutual

/-- Expression nodes. Callee is flattened into the Call constructor as the
callee expression plus the callee's position (Callee::position in lox.rs). -/
inductive Expr where
  | Binary (left : Expr) (op : BinaryOperator) (right : Expr) (pos : Pos)
  | Logical (left : Expr) (op : LogicalOperator) (right : Expr) (pos : Pos)
  | Grouping (expr : Expr) (pos : Pos)
  | Lit (value : Literal) (pos : Pos)
  | Unary (pfx : UnaryPfx) (value : Expr) (pos : Pos)
  | Variable (value : Identifier) (pos : Pos)
  | Assignment (name : Identifier) (value : Expr) (pos : Pos)
  | Call (calleeExpr : Expr) (calleePos : Pos) (args : List Expr) (pos : Pos)
  | FunctionE (value : FunctionAst) (pos : Pos)
  | Get (object : Expr) (property : Identifier) (pos : Pos)
  | Set (object : Expr) (property : Identifier) (value : Expr) (pos : Pos)
  | This (ident : Identifier) (pos : Pos)

/-- ast::Function: optional name, parameters, body, span, static flag. -/
inductive FunctionAst where
  | mk (name : Option Identifier) (params : List Identifier) (body : Stmt)
       (pos : Pos) (isStatic : Bool)

/-- Statement nodes. -/
inductive Stmt where
  | Expression (expr : Expr) (pos : Pos)
  | Print (expr : Expr) (pos : Pos)
  | Var (name : Identifier) (initializer : Option Expr) (pos : Pos)
  | Block (statements : List Stmt) (pos : Pos)
  | If (condition : Expr) (if_block : Stmt) (else_block : Option Stmt) (pos : Pos)
  | While (condition : Expr) (block : Stmt) (pos : Pos)
  | ClassStmt (name : Identifier) (superClass : Option Expr)
              (methods : List FunctionAst) (pos : Pos)
  | Break (pos : Pos)
  | Continue (pos : Pos)
  | Return (value : Option Expr) (pos : Pos)

end

/-- ast::Function::name. -/
def FunctionAst.name : FunctionAst → Option Identifier
  | FunctionAst.mk n _ _ _ _ => n

/-- ast::Function::params. -/
def FunctionAst.params : FunctionAst → List Identifier
  | FunctionAst.mk _ ps _ _ _ => ps

/-- ast::Function::body. -/
def FunctionAst.body : FunctionAst → Stmt
  | FunctionAst.mk _ _ b _ _ => b

/-- ast::Function::is_static. -/
def FunctionAst.is_static : FunctionAst → Bool
  | FunctionAst.mk _ _ _ _ st => st

/-- ast::Function::param_strings. -/
def FunctionAst.param_strings (f : FunctionAst) : List String :=
  f.params.map Identifier.name_str

/-! ## Association lists

HashMap<String, V> is modelled as an association list: get is the first
matching key, insert replaces an existing binding or appends, len is the
number of (distinct) keys. -/

/-- HashMap::get. -/
def alookup {α : Type} : List (String × α) → String → Option α
  | [], _ => none
  | (k, v) :: rest, key => if k = key then some v else alookup rest key

/-- HashMap::contains_key. -/
def acontains {α : Type} (m : List (String × α)) (key : String) : Bool :=
  (alookup m key).isSome

/-- HashMap::insert (replace an existing binding, else append). -/
def ainsert {α : Type} : List (String × α) → String → α → List (String × α)
  | [], key, v => [(key, v)]
  | (k, w) :: rest, key, v =>
      if k = key then (k, v) :: rest else (k, w) :: ainsert rest key v

/-! ## Resolver (src/lang/tree/resolver.rs)

Only the scope-stack bookkeeping that claims about declare/define need is
embedded; a resolver scope maps a name to (slot index, is_defined). The
source keeps the scope stack in a Vec with the innermost scope last; here
the innermost scope is the head of the list, so Vec::push is cons,
Vec::last_mut is head, and iter().rev().enumerate() is plain traversal
with the list index as the depth. -/

/-- One resolver lexical scope: name to (slot index, is_defined). -/
abbrev RScope := List (String × (Nat × Bool))

/-- The resolver's state: the stack of scopes, innermost first. -/
structure Resolver where
  scopes : List RScope
deriving DecidableEq, Repr

/-- Resolver::declare: reserve the next slot (scope.len()) in the current
scope, marked not yet defined; error on a duplicate declaration; no scopes
means top level, which silently does nothing (the name stays global). -/
def Resolver.declare (r : Resolver) (name : Identifier) : Except String Resolver :=
  match r.scopes with
  | [] => Except.ok r
  | scope :: rest =>
      if acontains scope name.name_str then
        Except.error ("Resolver error: " ++ name.name ++ " already declared in this scope")
      else
        let slot := scope.length
        Except.ok ⟨ainsert scope name.name_str (slot, false) :: rest⟩

/-- Resolver::define: flip the innermost declaration of the name to
defined, and report the (depth, slot) pair written into the identifier
node's resolved-address cell, where the source computes
depth = self.scopes.len(). Returns none as the write when there is no
scope or the name is not declared in the innermost scope (no write
happens). swap_depth and swap_slot are missing from src; modelled from the
spec as storing the given depth and slot into the write-once cell. -/
def Resolver.define (r : Resolver) (name : Identifier) :
    Resolver × Option (Nat × Nat) :=
  let depth := r.scopes.length
  match r.scopes with
  | [] => (r, none)
  | scope :: rest =>
      match alookup scope name.name_str with
      | some (slot, _) =>
          (⟨ainsert scope name.name_str (slot, true) :: rest⟩, some (depth, slot))
      | none => (r, none)

/-- Resolver::resolve_local: search the scopes from innermost outward,
returning (depth, (slot, is_defined)) for the first scope containing the
name. -/
def Resolver.resolve_local (r : Resolver) (name : String) :
    Option (Nat × (Nat × Bool)) :=
  go r.scopes 0
where
  go : List RScope → Nat → Option (Nat × (Nat × Bool))
    | [], _ => none
    | scope :: rest, depth =>
        match alookup scope name with
        | some slotInfo => some (depth, slotInfo)
        | none => go rest (depth + 1)

/-! ## Tokens and the parser's break/continue statements
(src/lang/tokenizer/token.rs, src/lang/tree/parser.rs)

The scanner is an external collaborator (spec section 1); the token stream
is modelled as the list of already-scanned tokens, so the scan-error arm of
TokenStream::next is vacuous here. -/

/-- TokenType from token.rs. -/
inductive TokenType where
  | LeftParen | RightParen | LeftBrace | RightBrace | Comma | Dot | Semicolon
  | Minus | MinusEqual | Plus | PlusEqual | Slash | SlashEqual | Star | StarEqual
  | Bang | BangEqual | Equal | EqualEqual | Greater | GreaterEqual | Less | LessEqual
  | Identifier | Str | Number
  | And | ClassK | False | Fun | For | If | Else | NilK | Or | PrintK
  | ReturnK | Super | This | True | VarK | WhileK | BreakK | ContinueK | Static
  | Eof
deriving DecidableEq, Repr

/-- A token: type, lexeme, span. -/
structure Token where
  token_type : TokenType
  lexeme : String
  span : Span
deriving DecidableEq, Repr

/-- ParseError from src/lang/tree/error.rs (ScanError and ConversionError
payloads reduced to their message strings). -/
inductive ParseError where
  | ScanError (msg : String)
  | ConversionError (msg : String)
  | UnexpectedToken (expected : TokenType) (recieved : String)
                    (msg : String) (span : Span)
  | UnexpectedAssignment (type_str : String) (span : Span)
  | InvalidLoopKeyword (type_str : String) (span : Span)
  | InvalidReturn (span : Span)
  | FuncExceedMaxArgs (maxArgs : Nat) (span : Span)
  | InvalidFuncStatement (span : Span)
  | InvalidClassMethod (span : Span)
  | UnexpectedEof
deriving DecidableEq, Repr

/-- The parser state: the token stream plus the loop/function nesting
counters used to validate break/continue/return. -/
structure ParserSt where
  tokens : List Token
  last_token : Option Token
  loop_cnt : Int
  fn_cnt : Int
deriving DecidableEq, Repr

/-- TokenStream::next: pop the next token, remembering it as last_token;
end of stream is UnexpectedEof. -/
def ParserSt.nextToken (p : ParserSt) : Except ParseError Token × ParserSt :=
  match p.tokens with
  | [] => (Except.error ParseError.UnexpectedEof, p)
  | t :: rest => (Except.ok t, { p with tokens := rest, last_token := some t })

/-- Parser::expect: take the next token and demand the given type. -/
def ParserSt.expect (p : ParserSt) (msg : String) (t : TokenType) :
    Except ParseError Token × ParserSt :=
  match p.nextToken with
  | (Except.error e, p') => (Except.error e, p')
  | (Except.ok toke, p') =>
      if toke.token_type ≠ t then
        -- recieved is Token's Display output; the quoting characters it
        -- adds around the lexeme are dropped here.
        (Except.error (ParseError.UnexpectedToken t toke.lexeme msg toke.span), p')
      else
        (Except.ok toke, p')

/-- Parser::is_in_loop. -/
def ParserSt.is_in_loop (p : ParserSt) : Bool := p.loop_cnt > 0

/-- Parser::break_statement: only legal inside a loop; consumes the
terminating semicolon and yields Stmt::Break spanning keyword..semicolon.
The evaluator-era AST stores usize positions, so the node keeps the merged
span's start. -/
def break_statement (p : ParserSt) (keyword : Token) :
    Except ParseError Stmt × ParserSt :=
  if ¬ p.is_in_loop then
    (Except.error (ParseError.InvalidLoopKeyword keyword.lexeme keyword.span), p)
  else
    match p.expect "unterminated break statement" TokenType.Semicolon with
    | (Except.error e, p') => (Except.error e, p')
    | (Except.ok endTok, p') =>
        let span := keyword.span.merge endTok.span
        (Except.ok (Stmt.Break span.start), p')

/-- Parser::continue_statement: the source is line-for-line the body of
break_statement — including the Stmt::Break node it produces. -/
def continue_statement (p : ParserSt) (keyword : Token) :
    Except ParseError Stmt × ParserSt :=
  if ¬ p.is_in_loop then
    (Except.error (ParseError.InvalidLoopKeyword keyword.lexeme keyword.span), p)
  else
    match p.expect "unterminated break statement" TokenType.Semicolon with
    | (Except.error e, p') => (Except.error e, p')
    | (Except.ok endTok, p') =>
        let span := keyword.span.merge endTok.span
        (Except.ok (Stmt.Break span.start), p')

/-! ## Runtime object model
(src/interpreter/runtime/{function,class,object,control,eval}.rs)

Rc<RefCell<Scope>> and Rc<RefCell<ClassInstance>> are modelled as indices
into arenas kept in the interpreter state, so aliasing and mutation behave
as shared mutable references. Rc<Class> and Rc<Function> are immutable in
the source and are modelled by value; their Rc pointer identity (used only
by the == operator) is not tracked, and == on them is modelled as false
(distinct allocations are never pointer-equal in the source). -/

/-- runtime::function::Function: captured frame, parameter names, body. -/
structure FunctionV where
  closure : Nat
  params : List String
  body : Stmt

/-- runtime::class::Class: name, instance methods, statics, optional
superclass, optional initializer. -/
inductive ClassV where
  | mk (name : String) (methods : List (String × FunctionV))
       (statics : List (String × FunctionV)) (superClass : Option ClassV)
       (initM : Option FunctionV)

/-- Class field: name. -/
def ClassV.nameOf : ClassV → String
  | ClassV.mk n _ _ _ _ => n

/-- Class field: methods. -/
def ClassV.methods : ClassV → List (String × FunctionV)
  | ClassV.mk _ m _ _ _ => m

/-- Class field: statics. -/
def ClassV.statics : ClassV → List (String × FunctionV)
  | ClassV.mk _ _ st _ _ => st

/-- Class field: super_class. -/
def ClassV.superClass : ClassV → Option ClassV
  | ClassV.mk _ _ _ sc _ => sc

/-- Class::init: the class's own init field — the superclass chain is not
consulted. -/
def ClassV.init : ClassV → Option FunctionV
  | ClassV.mk _ _ _ _ i => i

mutual

/-- Class::get_method: own method table first, then the superclass chain
(the optional-superclass hop is split out so the recursion is structural). -/
def ClassV.get_method : ClassV → String → Option FunctionV
  | ClassV.mk _ methods _ superC _, name =>
      match alookup methods name with
      | some m => some m
      | none => getMethodSuper superC name

/-- The superclass hop of Class::get_method. -/
def getMethodSuper : Option ClassV → String → Option FunctionV
  | some sc, name => ClassV.get_method sc name
  | none, _ => none

end

/-- Class::get_static: own statics only. -/
def ClassV.get_static (c : ClassV) (name : String) : Option FunctionV :=
  alookup c.statics name

/-- Runtime values (object.rs LoxObject); class instances are arena ids. -/
inductive LoxObject where
  | Primitive (p : Primitive)
  | Class (c : ClassV)
  | ClassInstance (id : Nat)
  | Function (f : FunctionV)
  | Native (id : Nat)

/-- LoxObject::new_nil. -/
def LoxObject.new_nil : LoxObject := LoxObject.Primitive Primitive.Nil

/-- LoxObject::is_number. -/
def LoxObject.is_number : LoxObject → Bool
  | LoxObject.Primitive (Primitive.Number _) => true
  | _ => false

/-- LoxObject::as_number. -/
def LoxObject.as_number : LoxObject → Option ℚ
  | LoxObject.Primitive (Primitive.Number n) => some n
  | _ => none

/-- LoxObject::as_string. -/
def LoxObject.as_string : LoxObject → Option String
  | LoxObject.Primitive (Primitive.Str s) => some s
  | _ => none

/-- LoxObject::truthy: primitives by Primitive::truthy, everything else
(function, native, class, class instance) falsy. -/
def LoxObject.truthy : LoxObject → Bool
  | LoxObject.Primitive p => p.truthy
  | _ => false

/-- LoxObject::type_str. -/
def LoxObject.type_str : LoxObject → String
  | LoxObject.Primitive p => p.type_str
  | LoxObject.Function _ => "function"
  | LoxObject.Native _ => "native function"
  | LoxObject.Class _ => "class"
  | LoxObject.ClassInstance _ => "class instance"

/-- PartialEq for LoxObject: primitives by value; class instances by
arena id (Rc::ptr_eq); functions, classes and natives compare by pointer
identity in the source, which this value model does not track — modelled
as false, the value for distinct allocations. -/
def LoxObject.peq : LoxObject → LoxObject → Bool
  | LoxObject.Primitive a, LoxObject.Primitive b => a == b
  | LoxObject.ClassInstance a, LoxObject.ClassInstance b => a == b
  | _, _ => false

/-- runtime::class::ClassInstance: class back-reference plus mutable
property map. The class field is named constructor in the source. -/
structure ClassInstance where
  constructor : ClassV
  properties : List (String × LoxObject)

/-- ClassInstance::new: empty property map. -/
def ClassInstance.new (c : ClassV) : ClassInstance := ⟨c, []⟩

/-- ClassInstance::get: own properties first, then the class's method
lookup (which walks the superclass chain). -/
def ClassInstance.get (inst : ClassInstance) (prop : String) : Option LoxObject :=
  match alookup inst.properties prop with
  | some obj => some obj
  | none =>
      match inst.constructor.get_method prop with
      | some func => some (LoxObject.Function func)
      | none => none

/-- ClassInstance::set: insert into the property map, returning the old
binding. -/
def ClassInstance.set (inst : ClassInstance) (prop : String) (v : LoxObject) :
    ClassInstance × Option LoxObject :=
  (⟨inst.constructor, ainsert inst.properties prop v⟩, alookup inst.properties prop)

/-- ClassInstance::init: delegates to Class::init (own init only). -/
def ClassInstance.init (inst : ClassInstance) : Option FunctionV :=
  inst.constructor.init

/-- Control signals (control.rs). -/
inductive Control where
  | Break
  | Continue
  | Return (v : LoxObject)

/-- Control::type_str. -/
def Control.type_str : Control → String
  | Control.Break => "break"
  | Control.Continue => "continue"
  | Control.Return _ => "return"

/-- Control::is_break. -/
def Control.is_break : Control → Bool
  | Control.Break => true
  | _ => false

/-- Control::is_continue. -/
def Control.is_continue : Control → Bool
  | Control.Continue => true
  | _ => false

/-- Control::is_return. -/
def Control.is_return : Control → Bool
  | Control.Return _ => true
  | _ => false

/-- An evaluation result: a control signal or a value (eval.rs). -/
inductive Eval where
  | Ctrl (c : Control)
  | Object (o : LoxObject)

/-- Eval::is_break. -/
def Eval.is_break : Eval → Bool
  | Eval.Ctrl c => c.is_break
  | _ => false

/-- Eval::is_continue. -/
def Eval.is_continue : Eval → Bool
  | Eval.Ctrl c => c.is_continue
  | _ => false

/-- Eval::is_return (via Control::is_return, as used by the while loop). -/
def Eval.is_return : Eval → Bool
  | Eval.Ctrl c => c.is_return
  | _ => false

/-- Eval::is_control. -/
def Eval.is_control : Eval → Bool
  | Eval.Ctrl _ => true
  | _ => false

/-- Eval::truthy: control signals are falsy, objects by LoxObject::truthy. -/
def Eval.truthy : Eval → Bool
  | Eval.Ctrl _ => false
  | Eval.Object obj => obj.truthy

/-- Eval::new_nil. -/
def Eval.new_nil : Eval := Eval.Object LoxObject.new_nil

/-- Eval::new_break. -/
def Eval.new_break : Eval := Eval.Ctrl Control.Break

/-- Eval::new_continue. -/
def Eval.new_continue : Eval := Eval.Ctrl Control.Continue

/-- Eval::new_return. -/
def Eval.new_return (v : LoxObject) : Eval := Eval.Ctrl (Control.Return v)

/-- Eval::type_str. -/
def Eval.type_str : Eval → String
  | Eval.Ctrl c => c.type_str
  | Eval.Object o => o.type_str

/-- Modelled from the spec: Eval::unwrap_return is called by the
evaluator's call dispatch but its definition is missing from src (eval.rs
is mid-refactor); per the spec (section 4.4) a call site unwraps a Return
signal into a plain value; every other evaluation passes through. -/
def Eval.unwrap_return : Eval → Eval
  | Eval.Ctrl (Control.Return v) => Eval.Object v
  | e => e

/-! ## The frame chain and interpreter state
(src/interpreter/runtime/scope.rs and the Lox struct of src/interpreter/lox.rs) -/

/-- One runtime frame (scope.rs Scope): parent link, name-to-slot map,
flat slot storage. -/
structure Frame where
  parent : Option Nat
  slots : List (String × Nat)
  values : List LoxObject

/-- The interpreter state: the frame arena (Rc<RefCell<Scope>> identity is
the index), the current frame, the global table, the class-instance arena,
and the text printed so far. -/
structure St where
  frames : List Frame
  current : Nat
  globals : List (String × LoxObject)
  instances : List ClassInstance
  output : List String

/-- Fetch a frame by id. -/
def St.frame (s : St) (fid : Nat) : Option Frame := s.frames.get? fid

/-- Store a frame by id. -/
def St.setFrame (s : St) (fid : Nat) (f : Frame) : St :=
  { s with frames := s.frames.set fid f }

/-- Scope::declare on the current frame: append a nil value, map the name
to its index, return the index. A missing current frame cannot occur in
the source (Rc is always live); modelled as a no-op returning slot 0. -/
def St.declare (s : St) (name : String) : Nat × St :=
  match s.frame s.current with
  | none => (0, s)
  | some f =>
      let idx := f.values.length
      (idx, s.setFrame s.current
        { f with values := f.values ++ [LoxObject.new_nil],
                 slots := ainsert f.slots name idx })

/-- Scope::define on the current frame: overwrite the slot previously
reserved for the name; silently nothing when the name has no slot. -/
def St.define (s : St) (name : String) (v : LoxObject) : St :=
  match s.frame s.current with
  | none => s
  | some f =>
      match alookup f.slots name with
      | some idx => s.setFrame s.current { f with values := f.values.set idx v }
      | none => s

/-- Walk exactly distance parent links from a frame. -/
def St.frameIdAt (s : St) : Nat → Nat → Option Nat
  | fid, 0 => some fid
  | fid, d + 1 =>
      match s.frame fid with
      | some f =>
          match f.parent with
          | some p => s.frameIdAt p d
          | none => none
      | none => none

/-- Scope::get_at from the current frame: walk distance parents, index the
slot. The source panics on a dangling resolved address (spec section 7
calls that an internal invariant violation); modelled as nil. -/
def St.get_at (s : St) (distance slot : Nat) : LoxObject :=
  match s.frameIdAt s.current distance with
  | some fid =>
      match s.frame fid with
      | some f => (f.values.get? slot).getD LoxObject.new_nil
      | none => LoxObject.new_nil
  | none => LoxObject.new_nil

/-- Scope::set_at from the current frame; a dangling address is modelled
as a no-op (the source panics, see get_at). -/
def St.set_at (s : St) (distance slot : Nat) (v : LoxObject) : St :=
  match s.frameIdAt s.current distance with
  | some fid =>
      match s.frame fid with
      | some f => s.setFrame fid { f with values := f.values.set slot v }
      | none => s
  | none => s

/-- Lox::create_scope: allocate a fresh empty frame whose parent is the
current frame and make it current. -/
def St.create_scope (s : St) : St :=
  { s with frames := s.frames ++ [⟨some s.current, [], []⟩],
           current := s.frames.length }

/-- Lox::shed_scope: step current back to its parent when one exists. -/
def St.shed_scope (s : St) : St :=
  match s.frame s.current with
  | some f =>
      match f.parent with
      | some p => { s with current := p }
      | none => s
  | none => s

/-- Lox::get_global. -/
def St.get_global (s : St) (name : String) : Option LoxObject :=
  alookup s.globals name

/-- Lox::set_global. -/
def St.set_global (s : St) (name : String) (v : LoxObject) : St :=
  { s with globals := ainsert s.globals name v }

/-- Allocate a class instance in the arena (LoxObject::from(ClassInstance)). -/
def St.allocInstance (s : St) (inst : ClassInstance) : Nat × St :=
  (s.instances.length, { s with instances := s.instances ++ [inst] })

/-- ClassInstance::set through the arena (ci.borrow_mut().set(..)). -/
def St.setInstanceProp (s : St) (cid : Nat) (prop : String) (v : LoxObject) : St :=
  match s.instances.get? cid with
  | some inst => { s with instances := s.instances.set cid (inst.set prop v).1 }
  | none => s

/-- Function::bind: a new scope child of the captured frame with this
declared and defined to the target, allocated in the arena; the bound
function shares parameters and body. -/
def FunctionV.bind (f : FunctionV) (s : St) (target : LoxObject) :
    FunctionV × St :=
  let env : Frame := ⟨some f.closure, [("this", 0)], [target]⟩
  let fid := s.frames.length
  (⟨fid, f.params, f.body⟩, { s with frames := s.frames ++ [env] })

/-! ## Error constructors and operator helpers (free functions of lox.rs).
The message strings drop the quoting punctuation the source's format
strings add around interpolated fragments; no claim depends on message
text. -/

/-- lox.rs reference_error. -/
def reference_error (ident : Identifier) : RuntimeError :=
  (RuntimeError.Without
    (LoxError.ReferenceError ("undeclared identifier " ++ ident.name_str))).with_place
    ident.position

/-- lox.rs ref_error_prop_access. -/
def ref_error_prop_access (ident : Identifier) : RuntimeError :=
  (RuntimeError.Without
    (LoxError.ReferenceError ("undefined property " ++ ident.name_str))).with_place
    ident.position

/-- lox.rs type_error. -/
def type_error (expected recieved : String) : RuntimeError :=
  RuntimeError.Without
    (LoxError.TypeError ("expected type " ++ expected ++ " but recieved " ++ recieved))

/-- Operator symbol for error messages (ast.rs Display, stray quote marks
dropped). -/
def BinaryOperator.show : BinaryOperator → String
  | BinaryOperator.Equal _ => "="
  | BinaryOperator.NotEqual _ => "!"
  | BinaryOperator.Less _ => "<"
  | BinaryOperator.LessEqual _ => "<="
  | BinaryOperator.Greater _ => ">"
  | BinaryOperator.GreaterEqual _ => ">="
  | BinaryOperator.Plus _ => "+"
  | BinaryOperator.Minus _ => "-"
  | BinaryOperator.Star _ => "*"
  | BinaryOperator.Slash _ => "/"

/-- BinaryError from error.rs: routing information for operator failures. -/
inductive BinaryError where
  | LeftSide
  | RightSide
  | InvalidOperator
  | InvalidTypes

/-- lox.rs binary_op_error. -/
def binary_op_error (l r : LoxObject) (op : BinaryOperator) (err : BinaryError) :
    RuntimeError :=
  let msg :=
    match err with
    | BinaryError.LeftSide =>
        "lefthand side incorrect type " ++ l.type_str ++ " for op " ++ op.show
    | BinaryError.RightSide =>
        "righthand side incorrect type " ++ r.type_str ++ " for op " ++ op.show
    | BinaryError.InvalidOperator => "invalid binary operator " ++ op.show
    | _ => "cannot add " ++ l.type_str ++ " + " ++ r.type_str
  (RuntimeError.Without (LoxError.TypeError msg)).with_place op.position

/-- lox.rs unary_prefix_error. -/
def unary_pfx_error (l : LoxObject) (pfx : UnaryPfx) : RuntimeError :=
  (RuntimeError.Without
    (LoxError.TypeError ("invalid type " ++ l.type_str ++ " for this op"))).with_place
    pfx.position

/-- lox.rs concat_strings. -/
def concat_strings (l r : LoxObject) : Except BinaryError LoxObject :=
  match l.as_string, r.as_string with
  | some a, some b => Except.ok (LoxObject.Primitive (Primitive.Str (a ++ b)))
  | _, _ => Except.error BinaryError.InvalidTypes

/-- lox.rs apply_math_op: both operands must be numbers; the failure names
the side that was not. -/
def apply_math_op (l r : LoxObject) (f : ℚ → ℚ → ℚ) : Except BinaryError LoxObject :=
  match l.as_number, r.as_number with
  | some a, some b => Except.ok (LoxObject.Primitive (Primitive.Number (f a b)))
  | la, _ =>
      if la.isSome then Except.error BinaryError.RightSide
      else Except.error BinaryError.LeftSide

/-- lox.rs apply_comparison. -/
def apply_comparison (l r : LoxObject) (f : ℚ → ℚ → Bool) : Except BinaryError LoxObject :=
  match l.as_number, r.as_number with
  | some a, some b => Except.ok (LoxObject.Primitive (Primitive.Boolean (f a b)))
  | la, _ =>
      if la.isSome then Except.error BinaryError.RightSide
      else Except.error BinaryError.LeftSide

/-- lox.rs unary_op: Bang yields the operand's truthiness; Minus is
multiplication by minus one through apply_math_op. -/
def unary_op (value : LoxObject) (op : UnaryPfx) : Except BinaryError LoxObject :=
  match op with
  | UnaryPfx.Bang _ =>
      Except.ok (LoxObject.Primitive (Primitive.Boolean value.truthy))
  | UnaryPfx.Minus _ =>
      apply_math_op value (LoxObject.Primitive (Primitive.Number (-1)))
        (fun a b => a * b)

/-- lox.rs binary_op: Plus prefers numeric addition, falling back to string
concatenation; Slash, Minus, Star are apply_math_op; comparisons are
apply_comparison; Equal and NotEqual use PartialEq and never fail. -/
def binary_op (l r : LoxObject) (op : BinaryOperator) : Except BinaryError LoxObject :=
  match op with
  | BinaryOperator.Plus _ =>
      if l.is_number && r.is_number then apply_math_op l r (fun a b => a + b)
      else concat_strings l r
  | BinaryOperator.Minus _ => apply_math_op l r (fun a b => a - b)
  | BinaryOperator.Slash _ => apply_math_op l r (fun a b => a / b)
  | BinaryOperator.Star _ => apply_math_op l r (fun a b => a * b)
  | BinaryOperator.Greater _ => apply_comparison l r (fun a b => decide (a > b))
  | BinaryOperator.GreaterEqual _ => apply_comparison l r (fun a b => decide (a ≥ b))
  | BinaryOperator.Less _ => apply_comparison l r (fun a b => decide (a < b))
  | BinaryOperator.LessEqual _ => apply_comparison l r (fun a b => decide (a ≤ b))
  | BinaryOperator.Equal _ =>
      Except.ok (LoxObject.Primitive (Primitive.Boolean (l.peq r)))
  | BinaryOperator.NotEqual _ =>
      Except.ok (LoxObject.Primitive (Primitive.Boolean (!(l.peq r))))

/-- lox.rs unwrap_to_object: a control signal where a value is required is
a type error. -/
def unwrap_to_object : Eval → Except RuntimeError LoxObject
  | Eval.Object obj => Except.ok obj
  | e => Except.error (type_error "object" e.type_str)

/-! ## Display (print statement output)

Number formatting necessarily differs from Rust's f64 Display; no claim
reads the output log. Literal braces are written escaped. -/

/-- Primitive Display. -/
def Primitive.display : Primitive → String
  | Primitive.Number n => toString n
  | Primitive.Str s => s
  | Primitive.Boolean b => toString b
  | Primitive.Nil => "nil"

/-- Function Display (function.rs): up to three parameters shown. -/
def FunctionV.display (f : FunctionV) : String :=
  match f.params with
  | [] => "function() \x7b\x7d"
  | p0 :: rest =>
      let extras := rest.take (min f.params.length 3 - 1)
      let core := p0 ++ String.join (extras.map (fun p => ", " ++ p))
      if f.params.length > 3 then "function(" ++ core ++ ", ...) \x7b\x7d"
      else "function(" ++ core ++ ") \x7b\x7d"

/-- LoxObject Display (object.rs/class.rs); instances print as the class
name followed by empty braces. -/
def LoxObject.display (s : St) : LoxObject → String
  | LoxObject.Primitive p => p.display
  | LoxObject.Function f => f.display
  | LoxObject.Native _ => "[native]()"
  | LoxObject.Class c => "[class " ++ c.nameOf ++ "]"
  | LoxObject.ClassInstance cid =>
      match s.instances.get? cid with
      | some inst => inst.constructor.nameOf ++ " \x7b\x7d"
      | none => ""

/-! ## Native functions -/

/-- Modelled from the spec: native functions are host-provided
collaborators bound into the global table at startup (spec section 6,
native.rs). clock reads the wall clock, which is outside the model;
modelled as the constant 0. string formats its single argument and errors
on any other arity, as in native.rs. -/
def nativeCall (s : St) (id : Nat) (args : List LoxObject) :
    Except RuntimeError Eval × St :=
  match id with
  | 0 => (Except.ok (Eval.Object (LoxObject.Primitive (Primitive.Number 0))), s)
  | 1 =>
      match args with
      | [a] => (Except.ok (Eval.Object (LoxObject.Primitive (Primitive.Str (a.display s)))), s)
      | _ =>
          (Except.error (RuntimeError.Without (LoxError.NativeError
            (NativeError.InvalidArguments "to_string takes only one argument"))), s)
  | _ => (Except.error (RuntimeError.Without (LoxError.DebugError "unknown native")), s)

/-! ## The evaluator (src/interpreter/lox.rs)

Results are Option (Except RuntimeError Eval × St): none is fuel
exhaustion — the source recurses on the host stack without bound, so a
diverging program has no result here rather than a wrong one. One unit of
fuel is consumed by every recursive evaluation step. -/

/-- The evaluator's outcome type. -/
abbrev EvalOut := Option (Except RuntimeError Eval × St)

/-- A finished value outcome. -/
def EvalOut.okOut (v : Eval) (s : St) : EvalOut := some (Except.ok v, s)

/-- A finished error outcome. -/
def EvalOut.errOut (e : RuntimeError) (s : St) : EvalOut := some (Except.error e, s)

/-- The ? operator on evaluation results: propagate fuel exhaustion and
errors, feed values to the continuation. -/
def andThen (r : EvalOut) (k : Eval → St → EvalOut) : EvalOut :=
  match r with
  | none => none
  | some (Except.error e, s) => some (Except.error e, s)
  | some (Except.ok v, s) => k v s

/-- The pattern unwrap_to_object(x?).map_err(|e| e.with_place(p))? —
with place none when the source attaches no place. -/
def andThenObj (r : EvalOut) (place : Option Pos) (k : LoxObject → St → EvalOut) :
    EvalOut :=
  andThen r fun v s =>
    match unwrap_to_object v with
    | Except.ok obj => k obj s
    | Except.error e =>
        match place with
        | some p => EvalOut.errOut (e.with_place p) s
        | none => EvalOut.errOut e s

/-- Lox::resolve: a resolved address reads through get_at, otherwise the
global table. -/
def St.resolveIdent (s : St) (ident : Identifier) : Option LoxObject :=
  match ident.depth_slot with
  | some (depth, slot) => some (s.get_at depth slot)
  | none => s.get_global ident.name_str

/-- Lox::assign_global: error (leaving the table untouched) unless the
name is already a global. -/
def St.assign_global (s : St) (ident : Identifier) (v : LoxObject) :
    Except RuntimeError Unit × St :=
  if acontains s.globals ident.name_str then (Except.ok (), s.set_global ident.name_str v)
  else (Except.error (reference_error ident), s)

/-- Lox::bind: a resolver-assigned address means a local (declare then
define in the current frame); otherwise the name is a global. -/
def St.bindIdent (s : St) (ident : Identifier) (value : LoxObject) : St :=
  match ident.depth_slot with
  | some _ => ((s.declare ident.name_str).2).define ident.name_str value
  | none => s.set_global ident.name_str value

/-- Lox::setup_fn_stack: declare every parameter in the current frame,
then define parameters pairwise with the arguments (zip, so surplus on
either side is ignored). -/
def setup_fn_stack (s : St) (func : FunctionV) (args : List LoxObject) : St :=
  let s1 := func.params.foldl (fun acc p => (acc.declare p).2) s
  (func.params.zip args).foldl (fun acc pv => acc.define pv.1 pv.2) s1

/-- Lox::handle_class_instance_get: look up on the instance; a function
result is bound to the instance (fresh this frame); a missing name is a
property reference error. A dangling instance id cannot occur in the
source; modelled as the property error. -/
def handle_class_instance_get (s : St) (cid : Nat) (property : Identifier) :
    Except RuntimeError Eval × St :=
  match s.instances.get? cid with
  | some inst =>
      match inst.get property.name_str with
      | some v =>
          match v with
          | LoxObject.Function func =>
              let (bound, s1) := func.bind s (LoxObject.ClassInstance cid)
              (Except.ok (Eval.Object (LoxObject.Function bound)), s1)
          | _ => (Except.ok (Eval.Object v), s)
      | none => (Except.error (ref_error_prop_access property), s)
  | none => (Except.error (ref_error_prop_access property), s)

/-- Lox::handle_class_get: statics of that class only; a missing name is a
property reference error. -/
def handle_class_get (s : St) (c : ClassV) (property : Identifier) :
    Except RuntimeError Eval × St :=
  match c.get_static property.name_str with
  | some func => (Except.ok (Eval.Object (LoxObject.Function func)), s)
  | none => (Except.error (ref_error_prop_access property), s)

/-- Lox::handle_object_get: dispatch on the object kind; anything but an
instance or class is a reference error. -/
def handle_object_get (s : St) (obj : LoxObject) (property : Identifier) :
    Except RuntimeError Eval × St :=
  match obj with
  | LoxObject.ClassInstance cid => handle_class_instance_get s cid property
  | LoxObject.Class c => handle_class_get s c property
  | _ => (Except.error (reference_error property), s)

/-- Lox::visit_class_statement's table-building loop: name init goes to
the init slot (last wins), static methods to statics, the rest to the
method table; every method closes over the current scope. The source
unwraps the method's name (the parser guarantees it); an absent name is
modelled as the empty string. -/
def collectMethods (s : St) (methods : List FunctionAst) :
    List (String × FunctionV) × List (String × FunctionV) × Option FunctionV :=
  methods.foldl
    (fun acc method =>
      let mname := (method.name.map Identifier.name_str).getD ""
      let func : FunctionV := ⟨s.current, method.param_strings, method.body⟩
      if mname = "init" then (acc.1, acc.2.1, some func)
      else if method.is_static then (acc.1, ainsert acc.2.1 mname func, acc.2.2)
      else (ainsert acc.1 mname func, acc.2.1, acc.2.2))
    ([], [], none)

mutual

/-- Expression evaluation (the expression arms of lox.rs's Visitor impl). -/
def evalExpr : Nat → St → Expr → EvalOut
  | 0, _, _ => none
  | n + 1, s, e =>
    match e with
    | Expr.Binary left op right _ =>
        andThenObj (evalExpr n s left) (some op.position) fun l s1 =>
          andThenObj (evalExpr n s1 right) (some op.position) fun r s2 =>
            match binary_op l r op with
            | Except.ok v => EvalOut.okOut (Eval.Object v) s2
            | Except.error errType =>
                EvalOut.errOut (binary_op_error l r op errType) s2
    | Expr.Logical left op right _ =>
        andThen (evalExpr n s left) fun lhs s1 =>
          match op with
          | LogicalOperator.And _ =>
              if !lhs.truthy then EvalOut.okOut lhs s1 else evalExpr n s1 right
          | LogicalOperator.Or _ =>
              if lhs.truthy then EvalOut.okOut lhs s1 else evalExpr n s1 right
    | Expr.Grouping inner _ => evalExpr n s inner
    | Expr.Lit v _ =>
        EvalOut.okOut (Eval.Object (LoxObject.Primitive (Primitive.ofLiteral v))) s
    | Expr.Unary pfx valueE _ =>
        andThenObj (evalExpr n s valueE) (some pfx.position) fun value s1 =>
          match unary_op value pfx with
          | Except.ok v => EvalOut.okOut (Eval.Object v) s1
          | Except.error _ => EvalOut.errOut (unary_pfx_error value pfx) s1
    | Expr.Variable ident _ =>
        match ident.depth_slot with
        | some (depth, slot) => EvalOut.okOut (Eval.Object (s.get_at depth slot)) s
        | none =>
            match s.get_global ident.name_str with
            | some v => EvalOut.okOut (Eval.Object v) s
            | none => EvalOut.errOut (reference_error ident) s
    | Expr.Assignment ident valueE _ =>
        andThenObj (evalExpr n s valueE) (some ident.position) fun v s1 =>
          match ident.depth_slot with
          | some (depth, slot) =>
              EvalOut.okOut (Eval.Object v) (s1.set_at depth slot v)
          | none =>
              match s1.assign_global ident v with
              | (Except.error er, s2) => EvalOut.errOut er s2
              | (Except.ok _, s2) => EvalOut.okOut (Eval.Object v) s2
    | Expr.Call calleeExpr calleePos args _ =>
        andThenObj (evalExpr n s calleeExpr) (some calleePos) fun callObj s1 =>
          match evalArgs n s1 args calleePos with
          | none => none
          | some (Except.error er, s2) => some (Except.error er, s2)
          | some (Except.ok rtArgs, s2) =>
              match callObj with
              | LoxObject.Native id =>
                  match nativeCall s2 id rtArgs with
                  | (Except.error er, s3) => EvalOut.errOut (er.with_place calleePos) s3
                  | (Except.ok v, s3) => EvalOut.okOut v s3
              | LoxObject.Function f =>
                  match call_fn n s2 f rtArgs with
                  | none => none
                  | some (Except.error er, s3) =>
                      EvalOut.errOut (er.with_place calleePos) s3
                  | some (Except.ok v, s3) => EvalOut.okOut v.unwrap_return s3
              | LoxObject.Class c => classCall n s2 c rtArgs calleePos
              | _ =>
                  EvalOut.errOut
                    ((type_error "function" callObj.type_str).with_place calleePos) s2
    | Expr.FunctionE fa _ =>
        EvalOut.okOut
          (Eval.Object (LoxObject.Function ⟨s.current, fa.param_strings, fa.body⟩)) s
    | Expr.Get objectE property _ =>
        andThen (evalExpr n s objectE) fun ev s1 =>
          match ev with
          | Eval.Object obj => some (handle_object_get s1 obj property)
          | _ => EvalOut.errOut (type_error "class instance" ev.type_str) s1
    | Expr.Set objectE property valueE _ =>
        andThen (evalExpr n s objectE) fun ev s1 =>
          match ev with
          | Eval.Object (LoxObject.ClassInstance cid) =>
              andThenObj (evalExpr n s1 valueE) (some property.position) fun v s2 =>
                EvalOut.okOut Eval.new_nil (s2.setInstanceProp cid property.name_str v)
          | _ => EvalOut.errOut (type_error "class instance" ev.type_str) s1
    | Expr.This ident _ =>
        match s.resolveIdent ident with
        | some v => EvalOut.okOut (Eval.Object v) s
        | none => EvalOut.errOut (reference_error ident) s

/-- Left-to-right argument evaluation, each unwrapped to an object with the
callee's position attached to failures. -/
def evalArgs : Nat → St → List Expr → Pos → Option (Except RuntimeError (List LoxObject) × St)
  | 0, _, _, _ => none
  | _ + 1, s, [], _ => some (Except.ok [], s)
  | n + 1, s, a :: rest, calleePos =>
      match evalExpr n s a with
      | none => none
      | some (Except.error er, s1) => some (Except.error er, s1)
      | some (Except.ok v, s1) =>
          match unwrap_to_object v with
          | Except.error er => some (Except.error (er.with_place calleePos), s1)
          | Except.ok obj =>
              match evalArgs n s1 rest calleePos with
              | none => none
              | some (Except.error er, s2) => some (Except.error er, s2)
              | some (Except.ok objs, s2) => some (Except.ok (obj :: objs), s2)

/-- Lox::call_fn: save the current frame, switch to the closure's captured
frame, push one fresh frame, bind the parameters, run the body, shed the
parameter frame and restore the saved frame whether the body succeeded or
failed. -/
def call_fn : Nat → St → FunctionV → List LoxObject → EvalOut
  | 0, _, _, _ => none
  | n + 1, s, func, args =>
      let original := s.current
      let s1 : St := { s with current := func.closure }
      let s2 := s1.create_scope
      let s3 := setup_fn_stack s2 func args
      match evalStmt n s3 func.body with
      | none => none
      | some (ev, s4) =>
          let s5 := s4.shed_scope
          some (ev, { s5 with current := original })

/-- The Class arm of Lox::visit_call: fresh empty instance; with an
initializer (the class's own init), bind it to the instance, run it,
discard its result and yield the instance; without one, ignore the
arguments and yield the fresh instance. -/
def classCall : Nat → St → ClassV → List LoxObject → Pos → EvalOut
  | 0, _, _, _, _ => none
  | n + 1, s, c, rtArgs, pos =>
      let inst := ClassInstance.new c
      match inst.init with
      | some initFn =>
          let (iid, s1) := s.allocInstance inst
          let obj := LoxObject.ClassInstance iid
          let (bound, s2) := initFn.bind s1 obj
          match call_fn n s2 bound rtArgs with
          | none => none
          | some (Except.error er, s3) => EvalOut.errOut (er.with_place pos) s3
          | some (Except.ok _, s3) => EvalOut.okOut (Eval.Object obj) s3
      | none =>
          let (iid, s1) := s.allocInstance inst
          EvalOut.okOut (Eval.Object (LoxObject.ClassInstance iid)) s1

/-- Statement evaluation (the statement arms of lox.rs's Visitor impl). -/
def evalStmt : Nat → St → Stmt → EvalOut
  | 0, _, _ => none
  | n + 1, s, stmt =>
    match stmt with
    | Stmt.Expression e _ => evalExpr n s e
    | Stmt.Print e _ =>
        andThen (evalExpr n s e) fun v s1 =>
          match v with
          | Eval.Object obj =>
              EvalOut.okOut v { s1 with output := s1.output ++ [obj.display s1] }
          | _ => EvalOut.okOut v s1
    | Stmt.Var ident initializer _ =>
        match initializer with
        | some e =>
            andThenObj (evalExpr n s e) none fun v s1 =>
              EvalOut.okOut Eval.new_nil (s1.bindIdent ident v)
        | none => EvalOut.okOut Eval.new_nil (s.bindIdent ident LoxObject.new_nil)
    | Stmt.Block statements _ =>
        match evalStmtsLoop n s.create_scope statements with
        | none => none
        | some (Except.error er, s2) => some (Except.error er, s2)
        | some (Except.ok v, s2) => EvalOut.okOut v s2.shed_scope
    | Stmt.If condition if_block else_block _ =>
        andThen (evalExpr n s condition) fun c s1 =>
          if c.truthy then evalStmt n s1 if_block
          else
            match else_block with
            | some eb => evalStmt n s1 eb
            | none => EvalOut.okOut Eval.new_nil s1
    | Stmt.While condition block _ => evalWhile n s condition block
    | Stmt.ClassStmt name _ methods _ =>
        let (cms, sms, ini) := collectMethods s methods
        let cls := ClassV.mk name.name_str cms sms none ini
        let s1 := s.bindIdent name (LoxObject.Class cls)
        EvalOut.okOut (Eval.Object (LoxObject.Class cls)) s1
    | Stmt.Break _ => EvalOut.okOut Eval.new_break s
    | Stmt.Continue _ => EvalOut.okOut Eval.new_continue s
    | Stmt.Return valueOpt _ =>
        match valueOpt with
        | some e =>
            andThen (evalExpr n s e) fun ev s1 =>
              match unwrap_to_object ev with
              | Except.error er => EvalOut.errOut er s1
              | Except.ok obj => EvalOut.okOut (Eval.new_return obj) s1
        | none => EvalOut.okOut (Eval.new_return LoxObject.new_nil) s

/-- The statement loop of visit_block_statement: run statements in order,
stopping at the first control signal (which becomes the block's result)
and propagating the first error; a finished list is nil. The caller sheds
the block frame only on the non-error path, as in the source. -/
def evalStmtsLoop : Nat → St → List Stmt → EvalOut
  | 0, _, _ => none
  | _ + 1, s, [] => EvalOut.okOut Eval.new_nil s
  | n + 1, s, stmt :: rest =>
      match evalStmt n s stmt with
      | none => none
      | some (Except.error er, s1) => some (Except.error er, s1)
      | some (Except.ok v, s1) =>
          if v.is_control then EvalOut.okOut v s1 else evalStmtsLoop n s1 rest

/-- The loop of visit_while_statement: re-check the condition, run the
body; Break ends the loop (result nil), Return ends the loop with the
signal, anything else (Continue included) goes back to the condition; a
false condition yields nil. -/
def evalWhile : Nat → St → Expr → Stmt → EvalOut
  | 0, _, _, _ => none
  | n + 1, s, condition, block =>
      andThen (evalExpr n s condition) fun c s1 =>
        if c.truthy then
          andThen (evalStmt n s1 block) fun v s2 =>
            if v.is_break then EvalOut.okOut (Eval.Object LoxObject.new_nil) s2
            else if v.is_return then EvalOut.okOut v s2
            else evalWhile n s2 condition block
        else EvalOut.okOut (Eval.Object LoxObject.new_nil) s1

end

/-- Lox::new: one root frame, the native registry in the global table. -/
def Lox.new : St :=
  let base : St := { frames := [⟨none, [], []⟩], current := 0,
                     globals := [], instances := [], output := [] }
  (base.set_global "clock" (LoxObject.Native 0)).set_global "string" (LoxObject.Native 1)

/-! ## Theorems -/

/-- C8: attaching a source position to a runtime error is absorbing on
first use: with_place on an already-located error returns it unchanged, so
e.with_place p1 |> with_place p2 equals e.with_place p1 — the innermost
failure's position is kept. -/
theorem claim_C8_with_place_absorbing :
    (∀ (e : RuntimeError) (p1 p2 : Pos),
        (e.with_place p1).with_place p2 = e.with_place p1) ∧
    (∀ (r : LoxError) (p q : Pos),
        (RuntimeError.WithLocation r p).with_place q = RuntimeError.WithLocation r p) := by
  constructor
  · intro e p1 p2
    cases e <;> rfl
  · intro r p q
    rfl

/-- C9: an evaluation result is truthy exactly when it is the boolean
true, a number different from zero, or a string; nil, false, zero, every
non-primitive value (function, native, class, instance) and every control
signal are falsy. -/
theorem claim_C9_truthiness (ev : Eval) :
    ev.truthy = true ↔
      (ev = Eval.Object (LoxObject.Primitive (Primitive.Boolean true)) ∨
       (∃ n : ℚ, ¬ n = 0 ∧ ev = Eval.Object (LoxObject.Primitive (Primitive.Number n))) ∨
       (∃ str : String, ev = Eval.Object (LoxObject.Primitive (Primitive.Str str)))) := by
  cases ev with
  | Ctrl c => simp [Eval.truthy]
  | Object o =>
    cases o with
    | Primitive p =>
      cases p with
      | Number n =>
          by_cases h : n = 0 <;>
            simp [Eval.truthy, LoxObject.truthy, Primitive.truthy, h]
      | Str s => simp [Eval.truthy, LoxObject.truthy, Primitive.truthy]
      | Boolean b =>
          cases b <;> simp [Eval.truthy, LoxObject.truthy, Primitive.truthy]
      | Nil => simp [Eval.truthy, LoxObject.truthy, Primitive.truthy]
    | Class c => simp [Eval.truthy, LoxObject.truthy]
    | ClassInstance i => simp [Eval.truthy, LoxObject.truthy]
    | Function f => simp [Eval.truthy, LoxObject.truthy]
    | Native i => simp [Eval.truthy, LoxObject.truthy]

/-- C10: a successfully parsed continue statement produces a Stmt::Break
node — continue_statement is extensionally the same function as
break_statement, so no Continue node ever originates from a continue
statement and the two are indistinguishable downstream. -/
theorem claim_C10_continue_parses_to_break :
    (∀ (p : ParserSt) (kw : Token), continue_statement p kw = break_statement p kw) ∧
    (∀ (p : ParserSt) (kw : Token) (stmt : Stmt),
        (continue_statement p kw).1 = Except.ok stmt →
        ∃ sp, stmt = Stmt.Break sp) := by
  constructor
  · intro p kw
    rfl
  · intro p kw stmt h
    unfold continue_statement at h
    split at h
    · simp at h
    · split at h
      · simp at h
      · simp at h
        exact ⟨_, h.symm⟩

/-- Witness for C10: in a loop, with a semicolon next, continue parses to
a Break node. -/
theorem claim_C10_continue_parses_to_break_witness :
    ∃ sp, (Stmt.Break 0 : Stmt) = Stmt.Break sp :=
  claim_C10_continue_parses_to_break.2
    ⟨[⟨TokenType.Semicolon, ";", ⟨9, 10⟩⟩], none, 1, 0⟩
    ⟨TokenType.ContinueK, "continue", ⟨0, 8⟩⟩
    (Stmt.Break 0) (by rfl)

/-- C2: the claim says define writes the address (depth = 0, slot) into
the identifier being defined. The source computes depth = scopes.len(),
which is at least 1 whenever a write happens at all, so the written depth
is never 0: at the concrete failing input (one scope, a declared at slot
0) define marks a initialized and writes (1, 0); in general every write
records exactly the scope-stack length as the depth. -/
theorem claim_C2_define_writes_scope_count :
    ((Resolver.define ⟨[[("a", (0, false))]]⟩ ⟨"a", none, 0⟩).2 = some (1, 0) ∧
     (Resolver.define ⟨[[("a", (0, false))]]⟩ ⟨"a", none, 0⟩).1 =
       ⟨[[("a", (0, true))]]⟩) ∧
    (∀ (r : Resolver) (name : Identifier) (d sl : Nat),
        (r.define name).2 = some (d, sl) →
        d = r.scopes.length ∧ 1 ≤ r.scopes.length) := by
  refine ⟨⟨by rfl, by rfl⟩, ?_⟩
  intro r name d sl h
  unfold Resolver.define at h
  split at h
  · simp at h
  · rename_i scopes scope rest heq
    split at h
    · simp at h
      refine ⟨h.1.symm, ?_⟩
      rw [heq]
      simp
    · simp at h

/-- Witness for C2's general part: at the one-scope failing input the
written depth is the scope count, 1. -/
theorem claim_C2_define_writes_scope_count_witness :
    (1 : Nat) = (Resolver.mk [[("a", (0, false))]]).scopes.length ∧
      1 ≤ (Resolver.mk [[("a", (0, false))]]).scopes.length :=
  claim_C2_define_writes_scope_count.2
    ⟨[[("a", (0, false))]]⟩ ⟨"a", none, 0⟩ 1 0 (by rfl)

/-! Helper lemmas about the ? helper, shared by several proofs below. -/

theorem andThen_ok (v : Eval) (s : St) (k : Eval → St → EvalOut) :
    andThen (some (Except.ok v, s)) k = k v s := rfl

theorem andThen_err (e : RuntimeError) (s : St) (k : Eval → St → EvalOut) :
    andThen (some (Except.error e, s)) k = some (Except.error e, s) := rfl

theorem andThen_none (k : Eval → St → EvalOut) : andThen none k = none := rfl

theorem andThenObj_ok (o : LoxObject) (s : St) (p : Option Pos)
    (k : LoxObject → St → EvalOut) :
    andThenObj (some (Except.ok (Eval.Object o), s)) p k = k o s := rfl

theorem andThenObj_err (e : RuntimeError) (s : St) (p : Option Pos)
    (k : LoxObject → St → EvalOut) :
    andThenObj (some (Except.error e, s)) p k = some (Except.error e, s) := rfl

/-- A Return signal is neither Break nor Continue. -/
theorem is_return_not_break_continue (v : Eval) (h : v.is_return = true) :
    v.is_break = false ∧ v.is_continue = false := by
  cases v with
  | Object o => simp [Eval.is_return] at h
  | Ctrl c =>
      cases c <;>
        simp [Eval.is_return, Control.is_return, Eval.is_break, Eval.is_continue,
              Control.is_break, Control.is_continue] at h ⊢

/-- C7, corrected: when both operands of a division are numbers the source
always produces Ok — division by zero included — so the claimed typed
error never appears; the f64 carrier makes the value infinity or NaN
(here, the rationals' total division), and nothing crashes. The
counterexample shows the claim's error absent at 1 divided by 0. -/
theorem claim_C7_division_by_zero_counterexample :
    evalExpr 2 Lox.new
        (Expr.Binary (Expr.Lit (Literal.Number 1 0) 0) (BinaryOperator.Slash 5)
          (Expr.Lit (Literal.Number 0 1) 1) 2)
      = EvalOut.okOut
          (Eval.Object (LoxObject.Primitive (Primitive.Number ((1 : ℚ) / 0))))
          Lox.new := by
  rfl

/-- C7, amended: a division whose two operands evaluate to numbers always
yields an Ok numeric value — never an error result and never a crash —
including a zero right operand. -/
theorem claim_C7_division_total (a b : ℚ) (p : Pos) :
    (binary_op (LoxObject.Primitive (Primitive.Number a))
        (LoxObject.Primitive (Primitive.Number b)) (BinaryOperator.Slash p)
      = Except.ok (LoxObject.Primitive (Primitive.Number (a / b)))) ∧
    (∀ (n : Nat) (s : St) (pa pb pe : Pos),
        evalExpr (n + 2) s
            (Expr.Binary (Expr.Lit (Literal.Number a pa) pa) (BinaryOperator.Slash p)
              (Expr.Lit (Literal.Number b pb) pb) pe)
          = EvalOut.okOut
              (Eval.Object (LoxObject.Primitive (Primitive.Number (a / b)))) s) := by
  constructor
  · rfl
  · intro n s pa pb pe
    show evalExpr (n + 1 + 1) s _ = _
    simp [evalExpr, andThenObj, andThen, unwrap_to_object, Primitive.ofLiteral,
          binary_op, apply_math_op, LoxObject.as_number, EvalOut.okOut]

/-- C6: an assignment evaluates its right-hand side first (an error there
is the whole result, before the target is examined); a resolved local
address writes through set_at; an unresolved target with no existing
global fails with a ReferenceError and the state (global table included)
stays exactly the post-right-hand-side state; reading an unresolved
identifier absent from the globals is a ReferenceError, not nil; and
reference_error is ReferenceError-kinded at the identifier's position. -/
theorem claim_C6_assignment_and_global_errors :
    (∀ (n : Nat) (s s1 : St) (ident : Identifier) (e : Expr) (p : Pos)
       (er : RuntimeError),
        evalExpr n s e = some (Except.error er, s1) →
        evalExpr (n + 1) s (Expr.Assignment ident e p)
          = some (Except.error er, s1)) ∧
    (∀ (n : Nat) (s s1 : St) (ident : Identifier) (e : Expr) (p : Pos)
       (v : LoxObject) (d sl : Nat),
        evalExpr n s e = some (Except.ok (Eval.Object v), s1) →
        ident.depth_slot = some (d, sl) →
        evalExpr (n + 1) s (Expr.Assignment ident e p)
          = EvalOut.okOut (Eval.Object v) (s1.set_at d sl v)) ∧
    (∀ (n : Nat) (s s1 : St) (ident : Identifier) (e : Expr) (p : Pos)
       (v : LoxObject),
        evalExpr n s e = some (Except.ok (Eval.Object v), s1) →
        ident.depth_slot = none →
        alookup s1.globals ident.name_str = none →
        evalExpr (n + 1) s (Expr.Assignment ident e p)
          = EvalOut.errOut (reference_error ident) s1) ∧
    (∀ (n : Nat) (s : St) (ident : Identifier) (p : Pos),
        ident.depth_slot = none →
        alookup s.globals ident.name_str = none →
        evalExpr (n + 1) s (Expr.Variable ident p)
          = EvalOut.errOut (reference_error ident) s) ∧
    (∀ ident : Identifier, ∃ msg,
        reference_error ident
          = RuntimeError.WithLocation (LoxError.ReferenceError msg) ident.position) := by
  refine ⟨?_, ?_, ?_, ?_, ?_⟩
  · intro n s s1 ident e p er h
    simp [evalExpr, h, andThenObj, andThen]
  · intro n s s1 ident e p v d sl h hslot
    simp [evalExpr, h, andThenObj, andThen, unwrap_to_object, hslot, EvalOut.okOut]
  · intro n s s1 ident e p v h hslot hglob
    simp [evalExpr, h, andThenObj, andThen, unwrap_to_object, hslot,
          St.assign_global, acontains, hglob, EvalOut.errOut, EvalOut.okOut]
  · intro n s ident p hslot hglob
    simp [evalExpr, hslot, St.get_global, hglob, EvalOut.errOut]
  · intro ident
    exact ⟨_, rfl⟩

/-- Witness for C6: assigning to the never-declared global g fails with a
ReferenceError and leaves the interpreter state untouched. -/
theorem claim_C6_assignment_and_global_errors_witness :
    evalExpr 2 Lox.new
        (Expr.Assignment ⟨"g", none, 7⟩ (Expr.Lit (Literal.Number 1 0) 0) 0)
      = EvalOut.errOut (reference_error ⟨"g", none, 7⟩) Lox.new :=
  claim_C6_assignment_and_global_errors.2.2.1 1 Lox.new Lox.new ⟨"g", none, 7⟩
    (Expr.Lit (Literal.Number 1 0) 0) 0 (LoxObject.Primitive (Primitive.Number 1))
    (by rfl) (by rfl) (by rfl)

/-! Helper lemmas: declaring and defining locals never moves the current
frame, so parameter binding leaves the callee frame current. -/

theorem declare_current (s : St) (name : String) :
    ((s.declare name).2).current = s.current := by
  unfold St.declare
  split <;> rfl

theorem define_current (s : St) (name : String) (v : LoxObject) :
    (s.define name v).current = s.current := by
  unfold St.define
  split
  · rfl
  · split <;> rfl

theorem foldl_declare_current (ps : List String) (s : St) :
    (ps.foldl (fun acc p => (acc.declare p).2) s).current = s.current := by
  induction ps generalizing s with
  | nil => rfl
  | cons p rest ih => rw [List.foldl_cons, ih, declare_current]

theorem foldl_define_current (pvs : List (String × LoxObject)) (s : St) :
    (pvs.foldl (fun acc pv => acc.define pv.1 pv.2) s).current = s.current := by
  induction pvs generalizing s with
  | nil => rfl
  | cons pv rest ih => rw [List.foldl_cons, ih, define_current]

theorem setup_fn_stack_current (s : St) (f : FunctionV) (args : List LoxObject) :
    (setup_fn_stack s f args).current = s.current := by
  unfold setup_fn_stack
  rw [foldl_define_current, foldl_declare_current]

/-- C1: calling a closure runs the body in a state whose current frame is
one freshly allocated frame — created empty, its parent the closure's
captured scope (the scope stored when the function expression was
evaluated), never the caller's frame — and afterwards the caller's current
frame is restored whether the body succeeded or failed. -/
theorem claim_C1_closure_call_frames (n : Nat) (s : St) (func : FunctionV)
    (args : List LoxObject) :
    (call_fn (n + 1) s func args
       = (match evalStmt n
             (setup_fn_stack (St.create_scope { s with current := func.closure }) func args)
             func.body with
          | none => none
          | some (ev, s4) => some (ev, { s4.shed_scope with current := s.current }))) ∧
    (s.frames.get? s.frames.length = none) ∧
    ((St.create_scope { s with current := func.closure }).current = s.frames.length) ∧
    ((St.create_scope { s with current := func.closure }).frames.get? s.frames.length
       = some ⟨some func.closure, [], []⟩) ∧
    ((setup_fn_stack (St.create_scope { s with current := func.closure }) func args).current
       = s.frames.length) ∧
    (∀ (m : Nat) (st : St) (fa : FunctionAst) (q : Pos),
        evalExpr (m + 1) st (Expr.FunctionE fa q)
          = EvalOut.okOut
              (Eval.Object (LoxObject.Function ⟨st.current, fa.param_strings, fa.body⟩)) st) ∧
    (∀ (res : Except RuntimeError Eval) (s' : St),
        call_fn (n + 1) s func args = some (res, s') → s'.current = s.current) := by
  have heq : call_fn (n + 1) s func args
      = (match evalStmt n
            (setup_fn_stack (St.create_scope { s with current := func.closure }) func args)
            func.body with
         | none => none
         | some (ev, s4) => some (ev, { s4.shed_scope with current := s.current })) := rfl
  refine ⟨heq, ?_, rfl, ?_, ?_, ?_, ?_⟩
  · simp
  · show ((({ s with current := func.closure } : St).frames
        ++ [Frame.mk (some func.closure) [] []]).get? s.frames.length)
      = some (Frame.mk (some func.closure) [] [])
    simp
  · rw [setup_fn_stack_current]
    rfl
  · intro m st fa q
    rfl
  · intro res s' h
    rw [heq] at h
    split at h
    · exact absurd h (by simp)
    · rename_i ev s4 hsome
      rw [Option.some_inj] at h
      have h2 := congrArg Prod.snd h
      simp only [Prod.snd] at h2
      rw [← h2]

/-- A zero-parameter function closing over the root frame, body return. -/
def fEx : FunctionV := ⟨0, [], Stmt.Return none 0⟩

/-- Witness for C1: after the concrete call the caller's frame (the root)
is current again. -/
theorem claim_C1_closure_call_frames_witness :
    ({ Lox.new with frames := Lox.new.frames ++ [Frame.mk (some 0) [] []] } : St).current
      = Lox.new.current :=
  (claim_C1_closure_call_frames 1 Lox.new fEx []).2.2.2.2.2.2
    (Except.ok (Eval.new_return LoxObject.new_nil))
    { Lox.new with frames := Lox.new.frames ++ [Frame.mk (some 0) [] []] } (by rfl)

/-! Fixtures for C4: a superclass with an initializer, a subclass without
one, and an initializer-free class. -/

/-- The ancestor's initializer (body: return). -/
def initA : FunctionV := ⟨0, [], Stmt.Return none 0⟩

/-- Class A with its own initializer. -/
def classA : ClassV := ClassV.mk "A" [] [] none (some initA)

/-- Class B extending A, without an own initializer. -/
def classB : ClassV := ClassV.mk "B" [] [] (some classA) none

/-- Class D: no superclass, no initializer. -/
def classD : ClassV := ClassV.mk "D" [] [] none none

/-- Modelled from the spec: the initializer lookup the claim describes —
the class's own initializer, else the nearest ancestor's. Stated only to
be compared with the code's own-init-only lookup. -/
def specChainInit : ClassV → Option FunctionV
  | ClassV.mk _ _ _ sup i =>
      match i with
      | some f => some f
      | none =>
          match sup with
          | some sc => specChainInit sc
          | none => none

/-- C4 counterexample: B's ancestor A defines an initializer (the claim's
lookup finds it), but the code's lookup finds none, and instantiating B —
with a non-empty argument list — allocates a fresh empty instance and
returns it without ever running or even binding an initializer: the
result state differs from the input state only by the fresh instance (no
call frame was created). -/
theorem claim_C4_ancestor_init_counterexample :
    specChainInit classB = some initA ∧
    (ClassInstance.new classB).init = none ∧
    classCall 3 Lox.new classB [LoxObject.new_nil] 0
      = EvalOut.okOut (Eval.Object (LoxObject.ClassInstance 0))
          { Lox.new with instances := [ClassInstance.new classB] } := by
  refine ⟨rfl, rfl, rfl⟩

/-- C4, amended: calling a class value creates an instance with an empty
property map; if the class itself defines an initializer (ancestors are
not consulted) it is bound to the new instance and called with the call's
arguments, its return value is discarded and the instance is the result;
otherwise the arguments are ignored and the fresh instance is returned. -/
theorem claim_C4_class_instantiation (n : Nat) (s : St) (c : ClassV)
    (args : List LoxObject) (p : Pos) :
    ((ClassInstance.new c).properties = []) ∧
    (c.init = none →
       classCall (n + 1) s c args p
         = EvalOut.okOut (Eval.Object (LoxObject.ClassInstance s.instances.length))
             { s with instances := s.instances ++ [ClassInstance.new c] }) ∧
    (∀ f : FunctionV,
        c.init = some f →
        classCall (n + 1) s c args p
          = (let s1 : St := { s with instances := s.instances ++ [ClassInstance.new c] }
             let obj := LoxObject.ClassInstance s.instances.length
             let bound := (f.bind s1 obj).1
             let s2 := (f.bind s1 obj).2
             match call_fn n s2 bound args with
             | none => none
             | some (Except.error er, s3) => EvalOut.errOut (er.with_place p) s3
             | some (Except.ok _, s3) => EvalOut.okOut (Eval.Object obj) s3)) := by
  refine ⟨rfl, ?_, ?_⟩
  · intro hinit
    simp [classCall, ClassInstance.init, ClassInstance.new, hinit, St.allocInstance,
          EvalOut.okOut]
  · intro f hinit
    simp [classCall, ClassInstance.init, ClassInstance.new, hinit, St.allocInstance,
          FunctionV.bind, EvalOut.okOut, EvalOut.errOut]

/-- Witness for C4: a class without an initializer instantiates to the
fresh empty instance, the (empty) argument list ignored. -/
theorem claim_C4_class_instantiation_witness :
    classCall 3 Lox.new classD [] 0
      = EvalOut.okOut (Eval.Object (LoxObject.ClassInstance 0))
          { Lox.new with instances := [ClassInstance.new classD] } :=
  (claim_C4_class_instantiation 2 Lox.new classD [] 0).2.1 (by rfl)

/-- Class::get_method, written through the field accessors. -/
theorem get_method_eq (c : ClassV) (prop : String) :
    c.get_method prop
      = (match alookup c.methods prop with
         | some m => some m
         | none =>
             match c.superClass with
             | some sc => sc.get_method prop
             | none => none) := by
  cases c with
  | mk nm ms sts sup ini =>
      rw [ClassV.get_method]
      simp only [ClassV.methods, ClassV.superClass]
      cases h : alookup ms prop with
      | some m => simp [h]
      | none => cases sup <;> simp [h, getMethodSuper]

/-- C5: property lookup on a class instance consults the instance's own
properties first, then the class's method table, then the superclass
chain; a static lookup consults only that class's own static table —
invariant under the method table and the superclass — and a name found
nowhere yields a ReferenceError at the property's position. -/
theorem claim_C5_property_lookup :
    (∀ (inst : ClassInstance) (prop : String) (v : LoxObject),
        alookup inst.properties prop = some v → inst.get prop = some v) ∧
    (∀ (inst : ClassInstance) (prop : String),
        alookup inst.properties prop = none →
        inst.get prop = (inst.constructor.get_method prop).map LoxObject.Function) ∧
    (∀ (c : ClassV) (prop : String) (f : FunctionV),
        alookup c.methods prop = some f → c.get_method prop = some f) ∧
    (∀ (c : ClassV) (prop : String),
        alookup c.methods prop = none →
        c.get_method prop = c.superClass.bind (fun sc => sc.get_method prop)) ∧
    (∀ (name : String) (ms ms' sts : List (String × FunctionV))
       (sup sup' : Option ClassV) (ini ini' : Option FunctionV) (prop : String),
        ClassV.get_static (ClassV.mk name ms sts sup ini) prop
          = ClassV.get_static (ClassV.mk name ms' sts sup' ini') prop) ∧
    (∀ (c : ClassV) (prop : String), c.get_static prop = alookup c.statics prop) ∧
    (∀ (s : St) (cid : Nat) (property : Identifier) (inst : ClassInstance),
        s.instances.get? cid = some inst →
        inst.get property.name_str = none →
        handle_class_instance_get s cid property
          = (Except.error (ref_error_prop_access property), s)) ∧
    (∀ (s : St) (c : ClassV) (property : Identifier),
        c.get_static property.name_str = none →
        handle_class_get s c property
          = (Except.error (ref_error_prop_access property), s)) ∧
    (∀ ident : Identifier, ∃ msg,
        ref_error_prop_access ident
          = RuntimeError.WithLocation (LoxError.ReferenceError msg) ident.position) := by
  refine ⟨?_, ?_, ?_, ?_, ?_, ?_, ?_, ?_, ?_⟩
  · intro inst prop v h
    simp [ClassInstance.get, h]
  · intro inst prop h
    simp only [ClassInstance.get, h]
    cases hm : inst.constructor.get_method prop <;> simp [hm]
  · intro c prop f h
    rw [get_method_eq, h]
  · intro c prop h
    rw [get_method_eq, h]
    cases hsc : c.superClass <;> simp [hsc]
  · intro name ms ms' sts sup sup' ini ini' prop
    rfl
  · intro c prop
    rfl
  · intro s cid property inst hinst hget
    rw [List.get?_eq_getElem?] at hinst
    simp [handle_class_instance_get, hinst, hget]
  · intro s c property hget
    simp [handle_class_get, hget]
  · intro ident
    exact ⟨_, rfl⟩

/-- A method on the C5 fixture superclass. -/
def methodM : FunctionV := ⟨0, [], Stmt.Return none 0⟩

/-- C5 fixture: a parent class carrying method m. -/
def classParent : ClassV := ClassV.mk "P" [("m", methodM)] [] none none

/-- C5 fixture: a child class with an empty method table extending P. -/
def classChild : ClassV := ClassV.mk "C" [] [] (some classParent) none

/-- Witness for C5: a name missing from the child's own table falls
through to the superclass walk. -/
theorem claim_C5_property_lookup_witness :
    classChild.get_method "m"
      = classChild.superClass.bind (fun sc => sc.get_method "m") :=
  claim_C5_property_lookup.2.2.2.1 classChild "m" (by rfl)

/-- C3: a while statement re-evaluates its condition before every
iteration; a body yielding Break (however deeply it unwound out of nested
blocks, each of which stops its remaining statements and pops its frame)
ends the loop with result nil; a body yielding Return ends the loop with
that signal as the result; Continue (like any other non-signal outcome)
just ends the iteration, going back to the condition; and the loop's own
result never carries Break or Continue, so neither signal can propagate
past the nearest enclosing loop. -/
theorem claim_C3_while_loop_signals :
    (∀ (m : Nat) (s : St) (cond : Expr) (block : Stmt) (p : Pos),
        evalStmt (m + 1) s (Stmt.While cond block p) = evalWhile m s cond block) ∧
    (∀ (m : Nat) (s s1 : St) (cond : Expr) (block : Stmt) (c : Eval),
        evalExpr m s cond = some (Except.ok c, s1) → c.truthy = false →
        evalWhile (m + 1) s cond block
          = EvalOut.okOut (Eval.Object LoxObject.new_nil) s1) ∧
    (∀ (m : Nat) (s s1 s2 : St) (cond : Expr) (block : Stmt) (c v : Eval),
        evalExpr m s cond = some (Except.ok c, s1) → c.truthy = true →
        evalStmt m s1 block = some (Except.ok v, s2) → v.is_break = true →
        evalWhile (m + 1) s cond block
          = EvalOut.okOut (Eval.Object LoxObject.new_nil) s2) ∧
    (∀ (m : Nat) (s s1 s2 : St) (cond : Expr) (block : Stmt) (c v : Eval),
        evalExpr m s cond = some (Except.ok c, s1) → c.truthy = true →
        evalStmt m s1 block = some (Except.ok v, s2) → v.is_return = true →
        evalWhile (m + 1) s cond block = EvalOut.okOut v s2) ∧
    (∀ (m : Nat) (s s1 s2 : St) (cond : Expr) (block : Stmt) (c v : Eval),
        evalExpr m s cond = some (Except.ok c, s1) → c.truthy = true →
        evalStmt m s1 block = some (Except.ok v, s2) →
        v.is_break = false → v.is_return = false →
        evalWhile (m + 1) s cond block = evalWhile m s2 cond block) ∧
    (∀ (m : Nat) (s s' : St) (cond : Expr) (block : Stmt) (r : Eval),
        evalWhile m s cond block = some (Except.ok r, s') →
        r.is_break = false ∧ r.is_continue = false) ∧
    (∀ (m : Nat) (s s1 : St) (stmtA : Stmt) (rest : List Stmt) (p : Pos) (v : Eval),
        evalStmt m s.create_scope stmtA = some (Except.ok v, s1) →
        v.is_control = true →
        evalStmt (m + 2) s (Stmt.Block (stmtA :: rest) p)
          = EvalOut.okOut v s1.shed_scope) := by
  refine ⟨?_, ?_, ?_, ?_, ?_, ?_, ?_⟩
  · intro m s cond block p
    simp [evalStmt]
  · intro m s s1 cond block c hc ht
    simp only [evalWhile]
    rw [hc, andThen_ok]
    simp [ht]
  · intro m s s1 s2 cond block c v hc ht hb hbreak
    simp only [evalWhile]
    rw [hc, andThen_ok]
    simp only [ht, if_true]
    rw [hb, andThen_ok]
    simp [hbreak]
  · intro m s s1 s2 cond block c v hc ht hb hret
    obtain ⟨hbk, _⟩ := is_return_not_break_continue v hret
    simp only [evalWhile]
    rw [hc, andThen_ok]
    simp only [ht, if_true]
    rw [hb, andThen_ok]
    simp [hbk, hret]
  · intro m s s1 s2 cond block c v hc ht hb hbk hret
    simp only [evalWhile]
    rw [hc, andThen_ok]
    simp only [ht, if_true]
    rw [hb, andThen_ok]
    simp [hbk, hret]
  · intro m
    induction m with
    | zero =>
        intro s s' cond block r h
        simp [evalWhile] at h
    | succ k ih =>
        intro s s' cond block r h
        simp only [evalWhile] at h
        unfold andThen at h
        split at h
        · simp at h
        · simp at h
        · rename_i res c s1 hres
          dsimp only at h
          by_cases ht : c.truthy
          · rw [if_pos ht] at h
            split at h
            · simp at h
            · simp at h
            · rename_i v s2 hres2
              by_cases hbk : v.is_break
              · rw [if_pos hbk] at h
                simp [EvalOut.okOut] at h
                rw [← h.1]
                constructor <;> rfl
              · rw [if_neg hbk] at h
                by_cases hrt : v.is_return
                · rw [if_pos hrt] at h
                  simp [EvalOut.okOut] at h
                  obtain ⟨hb2, hc2⟩ := is_return_not_break_continue v hrt
                  rw [← h.1]
                  exact ⟨hb2, hc2⟩
                · rw [if_neg hrt] at h
                  exact ih s2 s' cond block r h
          · rw [if_neg ht] at h
            simp [EvalOut.okOut] at h
            rw [← h.1]
            constructor <;> rfl
  · intro m s s1 stmtA rest p v h hctrl
    show evalStmt (m + 1 + 1) s _ = _
    simp only [evalStmt, evalStmtsLoop]
    rw [h]
    simp [hctrl, EvalOut.okOut]

/-- Witness for C3: while(true) break; evaluates to nil after one
iteration, and a break as the first statement of a block skips the rest of
the block and pops the block frame. -/
theorem claim_C3_while_loop_signals_witness :
    (evalWhile 2 Lox.new (Expr.Lit (Literal.Boolean true 0) 0) (Stmt.Break 0)
       = EvalOut.okOut (Eval.Object LoxObject.new_nil) Lox.new) ∧
    (evalStmt 3 Lox.new
        (Stmt.Block [Stmt.Break 0, Stmt.Print (Expr.Lit (Literal.Nil 0) 0) 0] 0)
       = EvalOut.okOut Eval.new_break (Lox.new.create_scope).shed_scope) :=
  ⟨claim_C3_while_loop_signals.2.2.1 1 Lox.new Lox.new Lox.new
      (Expr.Lit (Literal.Boolean true 0) 0) (Stmt.Break 0)
      (Eval.Object (LoxObject.Primitive (Primitive.Boolean true))) Eval.new_break
      (by rfl) (by rfl) (by rfl) (by rfl),
   claim_C3_while_loop_signals.2.2.2.2.2.2 1 Lox.new Lox.new.create_scope
      (Stmt.Break 0) [Stmt.Print (Expr.Lit (Literal.Nil 0) 0) 0] 0 Eval.new_break
      (by rfl) (by rfl)⟩

end RLox
